import Mathlib

/-!
Shallow embedding of the frame-presentation loop of `src/src/main.rs`
(the `event_loop.run` closure of `main`, lines 190-295).

The loop's mutable state (`window_resized`, `recreate_swapchain`, the
per-image `fences` table, `previous_fence_i`, the swapchain and the
command buffers / viewport derived from it) is modelled by `SchedState`.
Collaborator results that the source matches on (swapchain recreation,
`acquire_next_image`, `then_signal_fence_and_flush`) are supplied as an
oracle `TickInput`; one `MainEventsCleared` arm of the closure is the
function `tick`, other window events are handled by `step`.

Completion tokens (vulkano `FenceSignalFuture`s) are modelled by fresh
natural-number identifiers; `issued` is the ghost history of all tokens
ever created together with the slot each one was submitted against, and
`signaled` is the monotone set of token ids whose fence has signaled
(grown by the explicit `wait` of line 257 and, nondeterministically, by
the GPU via the environment event `Ev.gpuSignal`).

Swapchain generations are tracked by ghost counters: `surfaceGen` is
bumped by every successful `swapchain.recreate`, while `resourceGen`
and `viewportGen` record the generation against which the command
buffers (line 229) and the viewport (line 228) were last rebuilt.
A `panic!` of the source is modelled by setting `terminated`.
-/

namespace Sel

/-- Result of `swapchain.recreate` (main.rs lines 212-221): success with a
possibly different image count, the transient `ImageExtentNotSupported`
error, or any other (fatal) error. -/
inductive RebuildResult
  | ok (newCount : Nat)
  | invalidSize
  | fatal
deriving DecidableEq

/-- Result of `swapchain::acquire_next_image` (main.rs lines 241-249). -/
inductive AcquireResult
  | ok (slot : Nat) (suboptimal : Bool)
  | outOfDate
  | fatal
deriving DecidableEq

/-- Result of `then_signal_fence_and_flush` (main.rs lines 280-289). -/
inductive FlushResult
  | ok
  | outOfDate
  | fatal
deriving DecidableEq

/-- Oracle for the collaborator calls of one `MainEventsCleared` iteration. -/
structure TickInput where
  rebuildRes : RebuildResult
  acquireRes : AcquireResult
  flushRes : FlushResult
deriving DecidableEq

/-- A completion token: its fresh identifier and the slot it was submitted
against. -/
structure Token where
  id : Nat
  slot : Nat
deriving DecidableEq

/-- State of the event-loop closure of `main` (main.rs lines 190-295). -/
structure SchedState where
  /-- the `fences` vector: per-slot `Option` of the stored token id. -/
  fences : List (Option Nat)
  /-- the `previous_fence_i` variable. -/
  previousFenceI : Nat
  /-- the `window_resized` flag. -/
  windowResized : Bool
  /-- the `recreate_swapchain` flag. -/
  recreateSwapchain : Bool
  /-- ghost: generation of the current swapchain (bumped per recreate). -/
  surfaceGen : Nat
  /-- ghost: generation the `command_buffers` were last built against. -/
  resourceGen : Nat
  /-- ghost: generation the `viewport` dimensions were last set from. -/
  viewportGen : Nat
  /-- number of images of the current swapchain. -/
  imageCount : Nat
  /-- ghost: next fresh token id. -/
  nextTokenId : Nat
  /-- ghost: every token ever issued. -/
  issued : List Token
  /-- ghost: ids of tokens whose fence has signaled. -/
  signaled : List Nat
  /-- whether the loop has exited (window close or a `panic!`). -/
  terminated : Bool
deriving DecidableEq

/-- Observable actions of one loop iteration, in program order.
`submitPresent` covers the chained `then_execute` / `then_swapchain_present`
/ `then_signal_fence_and_flush` of lines 270-278: `prev` is the token id the
submission is joined after (`none` means the no-op `sync::now` future),
`cmdGen` the generation of the command buffer used, and `newTok` the token
obtained from the flush (`none` when the flush did not yield one). -/
inductive Action
  | rebuild
  | acquireOk (slot : Nat) (suboptimal : Bool)
  | acquireOutOfDate
  | waitFence (tok : Nat)
  | submitPresent (slot : Nat) (prev : Option Nat) (cmdGen : Nat) (newTok : Option Nat)
deriving DecidableEq

/-- Lines 280-291: match on the flush result, store (or clear) the slot's
fence table entry, and update `previous_fence_i`. A fatal flush error
panics inside the match, so neither assignment happens. -/
def tickFlush (s : SchedState) (slot : Nat) (prevOpt : Option Nat)
    (fr : FlushResult) (acts : List Action) : SchedState × List Action :=
  match fr with
  | .ok =>
      ({ s with
          fences := s.fences.set slot (some s.nextTokenId),
          nextTokenId := s.nextTokenId + 1,
          issued := ⟨s.nextTokenId, slot⟩ :: s.issued,
          previousFenceI := slot },
       acts ++ [Action.submitPresent slot prevOpt s.resourceGen (some s.nextTokenId)])
  | .outOfDate =>
      ({ s with
          fences := s.fences.set slot none,
          recreateSwapchain := true,
          previousFenceI := slot },
       acts ++ [Action.submitPresent slot prevOpt s.resourceGen none])
  | .fatal =>
      ({ s with terminated := true },
       acts ++ [Action.submitPresent slot prevOpt s.resourceGen none])

/-- Lines 260-278: read `fences[previous_fence_i]` (a `None` entry becomes
the no-op `sync::now` future) and build/flush the submission. An
out-of-bounds index would panic. -/
def tickSubmit (s : SchedState) (slot : Nat) (fr : FlushResult)
    (acts : List Action) : SchedState × List Action :=
  match s.fences[s.previousFenceI]? with
  | none => ({ s with terminated := true }, acts)
  | some prevOpt => tickFlush s slot prevOpt fr acts

/-- Lines 255-278: wait on the acquired slot's stored fence if any
(line 257), then submit. An out-of-bounds `fences[image_i]` would panic. -/
def tickWaitSubmit (s : SchedState) (slot : Nat) (fr : FlushResult)
    (acts : List Action) : SchedState × List Action :=
  match s.fences[slot]? with
  | none => ({ s with terminated := true }, acts)
  | some (some t) =>
      tickSubmit { s with signaled := t :: s.signaled } slot fr
        (acts ++ [Action.waitFence t])
  | some none => tickSubmit s slot fr acts

/-- Lines 251-278: set the invalidation flag on a suboptimal acquire
(lines 251-253), then wait and submit. -/
def tickAcquired (s : SchedState) (slot : Nat) (suboptimal : Bool)
    (fr : FlushResult) (acts : List Action) : SchedState × List Action :=
  tickWaitSubmit (if suboptimal then { s with recreateSwapchain := true } else s)
    slot fr acts

/-- Lines 241-249: match on `acquire_next_image`; `OutOfDate` sets the
invalidation flag and returns early, any other error panics. -/
def tickAcquirePhase (s : SchedState) (inp : TickInput)
    (acts : List Action) : SchedState × List Action :=
  match inp.acquireRes with
  | .outOfDate =>
      ({ s with recreateSwapchain := true }, acts ++ [Action.acquireOutOfDate])
  | .fatal => ({ s with terminated := true }, acts)
  | .ok slot sub => tickAcquired s slot sub inp.flushRes (acts ++ [Action.acquireOk slot sub])

/-- One `MainEventsCleared` arm (lines 206-292). Lines 207-239: if either
flag is set, clear `recreate_swapchain`, attempt `swapchain.recreate`
(an `ImageExtentNotSupported` failure returns early, any other failure
panics); on success bump the surface generation, and only when
`window_resized` was set clear it and rebuild the viewport and the
command buffers against the new generation. Then the acquire phase. -/
def tick (s : SchedState) (inp : TickInput) : SchedState × List Action :=
  if s.windowResized || s.recreateSwapchain then
    let s1 := { s with recreateSwapchain := false }
    match inp.rebuildRes with
    | .invalidSize => (s1, [Action.rebuild])
    | .fatal => ({ s1 with terminated := true }, [Action.rebuild])
    | .ok newCount =>
        let s2 := { s1 with surfaceGen := s1.surfaceGen + 1, imageCount := newCount }
        let s3 :=
          if s2.windowResized then
            { s2 with
                windowResized := false,
                viewportGen := s2.surfaceGen,
                resourceGen := s2.surfaceGen }
          else s2
        tickAcquirePhase s3 inp [Action.rebuild]
  else
    tickAcquirePhase s inp []

/-- Events delivered to the closure: the winit window events handled at
lines 200-205 plus 293, one `MainEventsCleared` iteration, and the
environment act of the GPU asynchronously signaling a fence. -/
inductive Ev
  | resized
  | closeRequested
  | mainCleared (inp : TickInput)
  | gpuSignal (tok : Nat)
  | otherEvent
deriving DecidableEq

/-- One event-loop step. `CloseRequested` sets `ControlFlow::Exit`
(lines 200-202) and nothing else: no wait is performed. A terminated
loop receives no further events. -/
def step (s : SchedState) (e : Ev) : SchedState × List Action :=
  if s.terminated then (s, [])
  else
    match e with
    | .resized => ({ s with windowResized := true }, [])
    | .closeRequested => ({ s with terminated := true }, [])
    | .gpuSignal t => ({ s with signaled := t :: s.signaled }, [])
    | .otherEvent => (s, [])
    | .mainCleared inp => tick s inp

/-- Initial state (lines 190-196): both flags clear, `fences` of length
`images.len()` with every entry `None`, `previous_fence_i = 0`. -/
def init (n : Nat) : SchedState :=
  { fences := List.replicate n none,
    previousFenceI := 0,
    windowResized := false,
    recreateSwapchain := false,
    surfaceGen := 0,
    resourceGen := 0,
    viewportGen := 0,
    imageCount := n,
    nextTokenId := 0,
    issued := [],
    signaled := [],
    terminated := false }

/-- States reachable from `init n` by event-loop steps. -/
inductive Reach (n : Nat) : SchedState → Prop
  | init : Reach n (init n)
  | step {s : SchedState} (e : Ev) : Reach n s → Reach n (step s e).1

/-- Run a list of events from a state. -/
def run (s : SchedState) : List Ev → SchedState
  | [] => s
  | e :: es => run (step s e).1 es

/-- A token is pending when it has been issued and its fence has not
signaled. -/
def Pending (s : SchedState) (t : Token) : Prop :=
  t ∈ s.issued ∧ t.id ∉ s.signaled

instance decidablePending (s : SchedState) (t : Token) : Decidable (Pending s t) :=
  inferInstanceAs (Decidable (t ∈ s.issued ∧ t.id ∉ s.signaled))

/-- Core invariant of the loop: the fence table has its startup length,
issued token ids are below the fresh counter, and every pending token is
the one currently stored in the fence table at its slot. -/
def Inv (n : Nat) (s : SchedState) : Prop :=
  s.fences.length = n ∧
  (∀ t ∈ s.issued, t.id < s.nextTokenId) ∧
  (∀ t ∈ s.issued, t.id ∉ s.signaled → s.fences[t.slot]? = some (some t.id))

/-- No submission/presentation action occurs in the list. -/
def isSubmit : Action → Bool
  | .submitPresent _ _ _ _ => true
  | _ => false

/-- No fence-wait action occurs in the list. -/
def isWait : Action → Bool
  | .waitFence _ => true
  | _ => false

def NoSubmit (l : List Action) : Prop := ∀ a ∈ l, isSubmit a = false

def NoWait (l : List Action) : Prop := ∀ a ∈ l, isWait a = false

/-- At most one unsignaled completion token exists per slot. -/
def AtMostOnePendingPerSlot (s : SchedState) : Prop :=
  ∀ t ∈ s.issued, ∀ u ∈ s.issued,
    t.id ∉ s.signaled → u.id ∉ s.signaled → t.slot = u.slot → t = u

/-- The acquire phase of a tick is reached: either no rebuild is pending,
or the pending rebuild succeeds. -/
def RebuildResult.isOk : RebuildResult → Bool
  | .ok _ => true
  | _ => false

def reachesAcquire (s : SchedState) (inp : TickInput) : Prop :=
  (s.windowResized || s.recreateSwapchain) = false ∨ inp.rebuildRes.isOk = true

/-- Oracle for a clean iteration: acquire succeeds on slot 0, flush ok. -/
def inpSubmit0 : TickInput :=
  ⟨RebuildResult.ok 3, AcquireResult.ok 0 false, FlushResult.ok⟩

/-- Oracle for an iteration whose acquire reports out-of-date. -/
def inpStaleAcquire : TickInput :=
  ⟨RebuildResult.ok 3, AcquireResult.outOfDate, FlushResult.ok⟩

/-- Oracle for an iteration whose rebuild fails with an invalid size. -/
def inpInvalidSize : TickInput :=
  ⟨RebuildResult.invalidSize, AcquireResult.ok 0 false, FlushResult.ok⟩

/-- Oracle for an iteration acquiring slot 0 whose flush reports
out-of-date. -/
def inpFlushOOD : TickInput :=
  ⟨RebuildResult.ok 3, AcquireResult.ok 0 false, FlushResult.outOfDate⟩

/-- Oracle for an iteration acquiring slot 0 with suboptimal=true. -/
def inpSuboptimal : TickInput :=
  ⟨RebuildResult.ok 3, AcquireResult.ok 0 true, FlushResult.ok⟩

/-- State of a 3-slot loop after one clean iteration submitting to
slot 0: the fence table holds token 0 at slot 0. -/
def sAfterSubmit : SchedState := run (init 3) [Ev.mainCleared inpSubmit0]

/-- State of a 3-slot loop after one iteration whose acquire reported
out-of-date: the invalidation flag is set, no resize is pending. -/
def sStale : SchedState := run (init 3) [Ev.mainCleared inpStaleAcquire]

/-- State after a stale-acquire-triggered rebuild attempt failed with an
invalid size: both flags are clear again. -/
def sDropped : SchedState :=
  run (init 3) [Ev.mainCleared inpStaleAcquire, Ev.mainCleared inpInvalidSize]

/-- State of a 3-slot loop after a resize notification. -/
def sResized : SchedState := run (init 3) [Ev.resized]

/-- A 3-slot state with both the resize and the invalidation flag set:
an out-of-date acquire followed by a resize notification. -/
def sBothFlags : SchedState :=
  run (init 3) [Ev.mainCleared inpStaleAcquire, Ev.resized]

theorem tickFlush_inv {n : Nat} {s : SchedState} {slot : Nat} {prevOpt : Option Nat}
    {fr : FlushResult} {acts : List Action}
    (hInv : Inv n s) (hslot : slot < s.fences.length)
    (hquiet : ∀ t ∈ s.issued, t.slot = slot → t.id ∈ s.signaled) :
    Inv n (tickFlush s slot prevOpt fr acts).1 := by
  obtain ⟨hlen, hfresh, hpend⟩ := hInv
  cases fr with
  | ok =>
      refine ⟨by simp [tickFlush, hlen], ?_, ?_⟩
      · intro t ht
        simp only [tickFlush, List.mem_cons] at ht ⊢
        rcases ht with rfl | ht
        · exact Nat.lt_succ_self _
        · exact Nat.lt_succ_of_lt (hfresh t ht)
      · intro t ht hsig
        simp only [tickFlush, List.mem_cons] at ht hsig ⊢
        rcases ht with rfl | ht
        · exact List.getElem?_set_self hslot
        · by_cases hts : t.slot = slot
          · exact absurd (hquiet t ht hts) hsig
          · rw [List.getElem?_set_ne (fun h => hts h.symm)]
            exact hpend t ht hsig
  | outOfDate =>
      refine ⟨by simp [tickFlush, hlen], ?_, ?_⟩
      · intro t ht
        simp only [tickFlush] at ht ⊢
        exact hfresh t ht
      · intro t ht hsig
        simp only [tickFlush] at ht hsig ⊢
        by_cases hts : t.slot = slot
        · exact absurd (hquiet t ht hts) hsig
        · rw [List.getElem?_set_ne (fun h => hts h.symm)]
          exact hpend t ht hsig
  | fatal =>
      exact ⟨hlen, hfresh, hpend⟩

theorem tickSubmit_inv {n : Nat} {s : SchedState} {slot : Nat}
    {fr : FlushResult} {acts : List Action}
    (hInv : Inv n s) (hslot : slot < s.fences.length)
    (hquiet : ∀ t ∈ s.issued, t.slot = slot → t.id ∈ s.signaled) :
    Inv n (tickSubmit s slot fr acts).1 := by
  unfold tickSubmit
  cases hp : s.fences[s.previousFenceI]? with
  | none => exact hInv
  | some prevOpt => exact tickFlush_inv hInv hslot hquiet

theorem tickWaitSubmit_inv {n : Nat} {s : SchedState} {slot : Nat}
    {fr : FlushResult} {acts : List Action}
    (hInv : Inv n s) :
    Inv n (tickWaitSubmit s slot fr acts).1 := by
  obtain ⟨hlen, hfresh, hpend⟩ := hInv
  unfold tickWaitSubmit
  cases hfo : s.fences[slot]? with
  | none => exact ⟨hlen, hfresh, hpend⟩
  | some fo =>
      have hslot : slot < s.fences.length := by
        rcases List.getElem?_eq_some.mp hfo with ⟨h, _⟩
        exact h
      cases fo with
      | some t =>
          refine tickSubmit_inv ⟨hlen, hfresh, ?_⟩ hslot ?_
          · intro u hu husig
            exact hpend u hu (fun hmem => husig (List.mem_cons_of_mem _ hmem))
          · intro u hu hus
            by_cases husig : u.id ∈ s.signaled
            · exact List.mem_cons_of_mem _ husig
            · have := hpend u hu husig
              rw [hus, hfo] at this
              simp only [Option.some.injEq] at this
              rw [← this]
              exact List.mem_cons_self _ _
      | none =>
          refine tickSubmit_inv ⟨hlen, hfresh, hpend⟩ hslot ?_
          intro u hu hus
          by_cases husig : u.id ∈ s.signaled
          · exact husig
          · have := hpend u hu husig
            rw [hus, hfo] at this
            simp at this

theorem tickAcquired_inv {n : Nat} {s : SchedState} {slot : Nat} {sub : Bool}
    {fr : FlushResult} {acts : List Action}
    (hInv : Inv n s) :
    Inv n (tickAcquired s slot sub fr acts).1 := by
  obtain ⟨hlen, hfresh, hpend⟩ := hInv
  unfold tickAcquired
  cases sub with
  | false => exact tickWaitSubmit_inv ⟨hlen, hfresh, hpend⟩
  | true => exact tickWaitSubmit_inv ⟨hlen, hfresh, hpend⟩

theorem tickAcquirePhase_inv {n : Nat} {s : SchedState} {inp : TickInput}
    {acts : List Action} (hInv : Inv n s) :
    Inv n (tickAcquirePhase s inp acts).1 := by
  unfold tickAcquirePhase
  cases inp.acquireRes with
  | outOfDate => exact hInv
  | fatal => exact hInv
  | ok slot sub => exact tickAcquired_inv hInv

theorem tick_inv {n : Nat} {s : SchedState} {inp : TickInput} (hInv : Inv n s) :
    Inv n (tick s inp).1 := by
  obtain ⟨hlen, hfresh, hpend⟩ := hInv
  unfold tick
  by_cases hflags : (s.windowResized || s.recreateSwapchain) = true
  · rw [if_pos hflags]
    cases inp.rebuildRes with
    | invalidSize => exact ⟨hlen, hfresh, hpend⟩
    | fatal => exact ⟨hlen, hfresh, hpend⟩
    | ok newCount =>
        dsimp only
        by_cases hwr : s.windowResized = true <;>
          simp only [hwr, if_true, if_false, Bool.false_eq_true] <;>
          exact tickAcquirePhase_inv ⟨hlen, hfresh, hpend⟩
  · rw [if_neg hflags]
    exact tickAcquirePhase_inv ⟨hlen, hfresh, hpend⟩

theorem step_inv {n : Nat} {s : SchedState} {e : Ev} (hInv : Inv n s) :
    Inv n (step s e).1 := by
  obtain ⟨hlen, hfresh, hpend⟩ := hInv
  unfold step
  by_cases ht : s.terminated = true
  · rw [if_pos ht]; exact ⟨hlen, hfresh, hpend⟩
  · rw [if_neg ht]
    cases e with
    | resized => exact ⟨hlen, hfresh, hpend⟩
    | closeRequested => exact ⟨hlen, hfresh, hpend⟩
    | otherEvent => exact ⟨hlen, hfresh, hpend⟩
    | gpuSignal t =>
        refine ⟨hlen, hfresh, ?_⟩
        intro u hu hus
        exact hpend u hu (fun hmem => hus (List.mem_cons_of_mem _ hmem))
    | mainCleared inp => exact tick_inv ⟨hlen, hfresh, hpend⟩

theorem reach_inv {n : Nat} {s : SchedState} (h : Reach n s) : Inv n s := by
  induction h with
  | init =>
      refine ⟨by simp [init], ?_, ?_⟩ <;> intro t ht <;> simp [init] at ht
  | step e _ ih => exact step_inv ih

theorem tickSubmit_eq {s : SchedState} {po : Option Nat} (slot : Nat)
    (fr : FlushResult) (acts : List Action)
    (hp : s.fences[s.previousFenceI]? = some po) :
    tickSubmit s slot fr acts = tickFlush s slot po fr acts := by
  unfold tickSubmit; rw [hp]

theorem tickWaitSubmit_wait {s : SchedState} {slot : Nat} {t : Nat}
    (fr : FlushResult) (acts : List Action)
    (hfo : s.fences[slot]? = some (some t)) :
    tickWaitSubmit s slot fr acts =
      tickSubmit { s with signaled := t :: s.signaled } slot fr
        (acts ++ [Action.waitFence t]) := by
  unfold tickWaitSubmit; rw [hfo]

theorem tickWaitSubmit_nowait {s : SchedState} {slot : Nat}
    (fr : FlushResult) (acts : List Action)
    (hfo : s.fences[slot]? = some none) :
    tickWaitSubmit s slot fr acts = tickSubmit s slot fr acts := by
  unfold tickWaitSubmit; rw [hfo]

theorem tickAcquired_false (s : SchedState) (slot : Nat) (fr : FlushResult)
    (acts : List Action) :
    tickAcquired s slot false fr acts = tickWaitSubmit s slot fr acts := rfl

theorem tickAcquired_true (s : SchedState) (slot : Nat) (fr : FlushResult)
    (acts : List Action) :
    tickAcquired s slot true fr acts =
      tickWaitSubmit { s with recreateSwapchain := true } slot fr acts := rfl

theorem tickAcquirePhase_ok {inp : TickInput} {slot : Nat} {sub : Bool}
    (s : SchedState) (acts : List Action)
    (hacq : inp.acquireRes = AcquireResult.ok slot sub) :
    tickAcquirePhase s inp acts =
      tickAcquired s slot sub inp.flushRes (acts ++ [Action.acquireOk slot sub]) := by
  unfold tickAcquirePhase; rw [hacq]

theorem tickAcquirePhase_outOfDate {inp : TickInput}
    (s : SchedState) (acts : List Action)
    (hacq : inp.acquireRes = AcquireResult.outOfDate) :
    tickAcquirePhase s inp acts =
      ({ s with recreateSwapchain := true }, acts ++ [Action.acquireOutOfDate]) := by
  unfold tickAcquirePhase; rw [hacq]

theorem tickAcquirePhase_fatal {inp : TickInput}
    (s : SchedState) (acts : List Action)
    (hacq : inp.acquireRes = AcquireResult.fatal) :
    tickAcquirePhase s inp acts = ({ s with terminated := true }, acts) := by
  unfold tickAcquirePhase; rw [hacq]

theorem tick_noflags {s : SchedState} (inp : TickInput)
    (h : (s.windowResized || s.recreateSwapchain) = false) :
    tick s inp = tickAcquirePhase s inp [] := by
  unfold tick; rw [if_neg (by simp [h])]

theorem tick_flags_invalidSize {s : SchedState} {inp : TickInput}
    (h : (s.windowResized || s.recreateSwapchain) = true)
    (hrr : inp.rebuildRes = RebuildResult.invalidSize) :
    tick s inp = ({ s with recreateSwapchain := false }, [Action.rebuild]) := by
  unfold tick; rw [if_pos h, hrr]

theorem tick_flags_fatal {s : SchedState} {inp : TickInput}
    (h : (s.windowResized || s.recreateSwapchain) = true)
    (hrr : inp.rebuildRes = RebuildResult.fatal) :
    tick s inp =
      ({ s with recreateSwapchain := false, terminated := true }, [Action.rebuild]) := by
  unfold tick; rw [if_pos h, hrr]

theorem tick_flags_ok_resized {s : SchedState} {inp : TickInput} {k : Nat}
    (hwr : s.windowResized = true)
    (hrr : inp.rebuildRes = RebuildResult.ok k) :
    tick s inp =
      tickAcquirePhase
        { s with
            recreateSwapchain := false,
            surfaceGen := s.surfaceGen + 1,
            imageCount := k,
            windowResized := false,
            viewportGen := s.surfaceGen + 1,
            resourceGen := s.surfaceGen + 1 }
        inp [Action.rebuild] := by
  unfold tick
  rw [if_pos (by rw [hwr]; rfl), hrr]
  dsimp only
  rw [if_pos (show s.windowResized = true from hwr)]

theorem tick_flags_ok_noresize {s : SchedState} {inp : TickInput} {k : Nat}
    (hwr : s.windowResized = false) (hrs : s.recreateSwapchain = true)
    (hrr : inp.rebuildRes = RebuildResult.ok k) :
    tick s inp =
      tickAcquirePhase
        { s with
            recreateSwapchain := false,
            surfaceGen := s.surfaceGen + 1,
            imageCount := k }
        inp [Action.rebuild] := by
  unfold tick
  rw [if_pos (by rw [hwr, hrs]; rfl), hrr]
  dsimp only
  rw [if_neg (by rw [hwr]; simp)]

theorem step_closeRequested {s : SchedState} (h : s.terminated = false) :
    step s Ev.closeRequested = ({ s with terminated := true }, []) := by
  unfold step; rw [if_neg (by simp [h])]

theorem step_mainCleared {s : SchedState} (inp : TickInput)
    (h : s.terminated = false) :
    step s (Ev.mainCleared inp) = tick s inp := by
  unfold step; rw [if_neg (by simp [h])]

theorem tickFlush_acts (s : SchedState) (slot : Nat) (po : Option Nat)
    (fr : FlushResult) (acts : List Action) :
    ∃ l, (tickFlush s slot po fr acts).2 = acts ++ l ∧ Action.rebuild ∉ l := by
  cases fr <;> exact ⟨_, rfl, by simp⟩

theorem tickSubmit_acts (s : SchedState) (slot : Nat)
    (fr : FlushResult) (acts : List Action) :
    ∃ l, (tickSubmit s slot fr acts).2 = acts ++ l ∧ Action.rebuild ∉ l := by
  unfold tickSubmit
  cases hp : s.fences[s.previousFenceI]? with
  | none => exact ⟨[], (List.append_nil _).symm, by simp⟩
  | some po => exact tickFlush_acts s slot po fr acts

theorem tickWaitSubmit_acts (s : SchedState) (slot : Nat)
    (fr : FlushResult) (acts : List Action) :
    ∃ l, (tickWaitSubmit s slot fr acts).2 = acts ++ l ∧ Action.rebuild ∉ l := by
  unfold tickWaitSubmit
  cases hfo : s.fences[slot]? with
  | none => exact ⟨[], (List.append_nil _).symm, by simp⟩
  | some fo =>
      cases fo with
      | some t =>
          obtain ⟨l, hl, hnr⟩ := tickSubmit_acts
            { s with signaled := t :: s.signaled } slot fr (acts ++ [Action.waitFence t])
          refine ⟨Action.waitFence t :: l, ?_, ?_⟩
          · rw [hl, List.append_assoc]; rfl
          · simp only [List.mem_cons]
            rintro (h | h)
            · exact absurd h.symm (by simp)
            · exact hnr h
      | none => exact tickSubmit_acts s slot fr acts

theorem tickAcquired_acts (s : SchedState) (slot : Nat) (sub : Bool)
    (fr : FlushResult) (acts : List Action) :
    ∃ l, (tickAcquired s slot sub fr acts).2 = acts ++ l ∧ Action.rebuild ∉ l := by
  cases sub with
  | false => rw [tickAcquired_false]; exact tickWaitSubmit_acts s slot fr acts
  | true => rw [tickAcquired_true]; exact tickWaitSubmit_acts _ slot fr acts

theorem tickAcquirePhase_acts (s : SchedState) (inp : TickInput)
    (acts : List Action) :
    ∃ l, (tickAcquirePhase s inp acts).2 = acts ++ l ∧ Action.rebuild ∉ l := by
  unfold tickAcquirePhase
  cases inp.acquireRes with
  | outOfDate => exact ⟨[Action.acquireOutOfDate], rfl, by simp⟩
  | fatal => exact ⟨[], (List.append_nil _).symm, by simp⟩
  | ok slot sub =>
      obtain ⟨l, hl, hnr⟩ :=
        tickAcquired_acts s slot sub inp.flushRes (acts ++ [Action.acquireOk slot sub])
      refine ⟨Action.acquireOk slot sub :: l, ?_, ?_⟩
      · rw [hl, List.append_assoc]; rfl
      · simp only [List.mem_cons]
        rintro (h | h)
        · exact absurd h.symm (by simp)
        · exact hnr h

theorem tick_rebuild_count (s : SchedState) (inp : TickInput) :
    ((tick s inp).2).count Action.rebuild =
      if (s.windowResized || s.recreateSwapchain) = true then 1 else 0 := by
  by_cases hflags : (s.windowResized || s.recreateSwapchain) = true
  · rw [if_pos hflags]
    unfold tick
    rw [if_pos hflags]
    cases inp.rebuildRes with
    | invalidSize => rfl
    | fatal => rfl
    | ok k =>
        dsimp only
        by_cases hwr : s.windowResized = true
        · rw [if_pos hwr]
          obtain ⟨l, hl, hnr⟩ := tickAcquirePhase_acts _ inp [Action.rebuild]
          rw [hl, List.count_append]
          rw [List.count_eq_zero.mpr hnr]
          decide
        · rw [if_neg hwr]
          obtain ⟨l, hl, hnr⟩ := tickAcquirePhase_acts _ inp [Action.rebuild]
          rw [hl, List.count_append]
          rw [List.count_eq_zero.mpr hnr]
          decide
  · rw [if_neg hflags]
    rw [tick_noflags inp (by simpa using hflags)]
    obtain ⟨l, hl, hnr⟩ := tickAcquirePhase_acts s inp []
    rw [hl, List.nil_append, List.count_eq_zero.mpr hnr]

theorem tick_head_rebuild (s : SchedState) (inp : TickInput)
    (h : (s.windowResized || s.recreateSwapchain) = true) :
    ((tick s inp).2).head? = some Action.rebuild := by
  unfold tick
  rw [if_pos h]
  cases inp.rebuildRes with
  | invalidSize => rfl
  | fatal => rfl
  | ok k =>
      dsimp only
      by_cases hwr : s.windowResized = true
      · rw [if_pos hwr]
        obtain ⟨l, hl, _⟩ := tickAcquirePhase_acts _ inp [Action.rebuild]
        rw [hl]; rfl
      · rw [if_neg hwr]
        obtain ⟨l, hl, _⟩ := tickAcquirePhase_acts _ inp [Action.rebuild]
        rw [hl]; rfl

/-- Fields of the state that the acquire-onward part of a tick never
touches: the swapchain generation, the generations of the render
resources, the resize flag, the fence-table length and the image count. -/
def SameRender (s s' : SchedState) : Prop :=
  s'.surfaceGen = s.surfaceGen ∧ s'.resourceGen = s.resourceGen ∧
  s'.viewportGen = s.viewportGen ∧ s'.windowResized = s.windowResized ∧
  s'.fences.length = s.fences.length ∧ s'.imageCount = s.imageCount

theorem tickFlush_render (s : SchedState) (slot : Nat) (po : Option Nat)
    (fr : FlushResult) (acts : List Action) :
    SameRender s (tickFlush s slot po fr acts).1 := by
  cases fr <;> simp [SameRender, tickFlush, List.length_set]

theorem tickSubmit_render (s : SchedState) (slot : Nat)
    (fr : FlushResult) (acts : List Action) :
    SameRender s (tickSubmit s slot fr acts).1 := by
  unfold tickSubmit
  cases hp : s.fences[s.previousFenceI]? with
  | none => exact ⟨rfl, rfl, rfl, rfl, rfl, rfl⟩
  | some po => exact tickFlush_render s slot po fr acts

theorem tickWaitSubmit_render (s : SchedState) (slot : Nat)
    (fr : FlushResult) (acts : List Action) :
    SameRender s (tickWaitSubmit s slot fr acts).1 := by
  unfold tickWaitSubmit
  cases hfo : s.fences[slot]? with
  | none => exact ⟨rfl, rfl, rfl, rfl, rfl, rfl⟩
  | some fo =>
      cases fo with
      | some t => exact tickSubmit_render _ slot fr _
      | none => exact tickSubmit_render s slot fr acts

theorem tickAcquired_render (s : SchedState) (slot : Nat) (sub : Bool)
    (fr : FlushResult) (acts : List Action) :
    SameRender s (tickAcquired s slot sub fr acts).1 := by
  cases sub with
  | false => rw [tickAcquired_false]; exact tickWaitSubmit_render s slot fr acts
  | true => rw [tickAcquired_true]; exact tickWaitSubmit_render _ slot fr acts

theorem tickAcquirePhase_render (s : SchedState) (inp : TickInput)
    (acts : List Action) :
    SameRender s (tickAcquirePhase s inp acts).1 := by
  unfold tickAcquirePhase
  cases inp.acquireRes with
  | outOfDate => exact ⟨rfl, rfl, rfl, rfl, rfl, rfl⟩
  | fatal => exact ⟨rfl, rfl, rfl, rfl, rfl, rfl⟩
  | ok slot sub => exact tickAcquired_render s slot sub inp.flushRes _

theorem tickFlush_signaled (s : SchedState) (slot : Nat) (po : Option Nat)
    (fr : FlushResult) (acts : List Action) {x : Nat} (hx : x ∈ s.signaled) :
    x ∈ (tickFlush s slot po fr acts).1.signaled := by
  cases fr <;> simpa [tickFlush] using hx

theorem tickSubmit_signaled (s : SchedState) (slot : Nat)
    (fr : FlushResult) (acts : List Action) {x : Nat} (hx : x ∈ s.signaled) :
    x ∈ (tickSubmit s slot fr acts).1.signaled := by
  unfold tickSubmit
  cases hp : s.fences[s.previousFenceI]? with
  | none => exact hx
  | some po => exact tickFlush_signaled s slot po fr acts hx

theorem tickWaitSubmit_waited {s : SchedState} {slot t : Nat}
    (fr : FlushResult) (acts : List Action)
    (hfo : s.fences[slot]? = some (some t)) :
    ∃ l, (tickWaitSubmit s slot fr acts).2 = acts ++ Action.waitFence t :: l ∧
      t ∈ (tickWaitSubmit s slot fr acts).1.signaled := by
  rw [tickWaitSubmit_wait fr acts hfo]
  obtain ⟨l, hl, _⟩ := tickSubmit_acts
    { s with signaled := t :: s.signaled } slot fr (acts ++ [Action.waitFence t])
  refine ⟨l, ?_, ?_⟩
  · rw [hl, List.append_assoc]; rfl
  · exact tickSubmit_signaled _ slot fr _ (List.mem_cons_self _ _)

theorem tickAcquirePhase_waited {s : SchedState} {inp : TickInput}
    {slot : Nat} {sub : Bool} {t : Nat} (acts : List Action)
    (hacq : inp.acquireRes = AcquireResult.ok slot sub)
    (hfo : s.fences[slot]? = some (some t)) :
    ∃ l, (tickAcquirePhase s inp acts).2 =
        (acts ++ [Action.acquireOk slot sub]) ++ Action.waitFence t :: l ∧
      t ∈ (tickAcquirePhase s inp acts).1.signaled := by
  rw [tickAcquirePhase_ok s acts hacq]
  cases sub with
  | false => rw [tickAcquired_false]; exact tickWaitSubmit_waited _ _ hfo
  | true => rw [tickAcquired_true]; exact tickWaitSubmit_waited _ _ hfo

theorem noSubmit_nil : NoSubmit [] := by intro a ha; simp at ha

theorem noSubmit_append {l1 l2 : List Action}
    (h1 : NoSubmit l1) (h2 : NoSubmit l2) : NoSubmit (l1 ++ l2) := by
  intro a ha
  rcases List.mem_append.mp ha with h | h
  · exact h1 a h
  · exact h2 a h

theorem noSubmit_rebuild : NoSubmit [Action.rebuild] := by
  intro a ha
  rw [List.mem_singleton.mp ha]
  rfl

theorem noSubmit_acquireOk (slot : Nat) (sub : Bool) :
    NoSubmit [Action.acquireOk slot sub] := by
  intro a ha
  rw [List.mem_singleton.mp ha]
  rfl

/-- When the acquire phase of a tick is reached, the tick is the acquire
phase of a state that agrees with the pre-tick state on the fence table,
the token bookkeeping and termination, with `recreate_swapchain` cleared
(line 208), preceded by at most one rebuild action. -/
theorem tick_reaches (s : SchedState) (inp : TickInput)
    (hra : reachesAcquire s inp) :
    ∃ s' acts0, tick s inp = tickAcquirePhase s' inp acts0 ∧
      s'.fences = s.fences ∧ s'.previousFenceI = s.previousFenceI ∧
      s'.issued = s.issued ∧ s'.signaled = s.signaled ∧
      s'.nextTokenId = s.nextTokenId ∧ s'.terminated = s.terminated ∧
      s'.recreateSwapchain = false ∧
      NoSubmit acts0 ∧ (∀ a ∈ acts0, isWait a = false) ∧
      ((s.windowResized || s.recreateSwapchain) = false →
        acts0 = [] ∧ s' = s) := by
  by_cases hflags : (s.windowResized || s.recreateSwapchain) = true
  · rcases hra with hra | hok
    · rw [hra] at hflags; exact absurd hflags (by simp)
    · cases hrr : inp.rebuildRes with
      | invalidSize => rw [hrr] at hok; simp [RebuildResult.isOk] at hok
      | fatal => rw [hrr] at hok; simp [RebuildResult.isOk] at hok
      | ok k =>
          by_cases hwr : s.windowResized = true
          · refine ⟨_, [Action.rebuild], tick_flags_ok_resized hwr hrr,
              rfl, rfl, rfl, rfl, rfl, rfl, rfl, noSubmit_rebuild,
              ?_, ?_⟩
            · intro a ha; rw [List.mem_singleton.mp ha]; rfl
            · intro hf; rw [hwr] at hf; simp at hf
          · have hwr' : s.windowResized = false := by
              cases hw : s.windowResized
              · rfl
              · exact absurd hw hwr
            have hrs' : s.recreateSwapchain = true := by
              rw [hwr'] at hflags; simpa using hflags
            refine ⟨_, [Action.rebuild], tick_flags_ok_noresize hwr' hrs' hrr,
              rfl, rfl, rfl, rfl, rfl, rfl, rfl, noSubmit_rebuild,
              ?_, ?_⟩
            · intro a ha; rw [List.mem_singleton.mp ha]; rfl
            · intro hf; rw [hwr', hrs'] at hf; simp at hf
  · have hf : (s.windowResized || s.recreateSwapchain) = false := by
      simpa using hflags
    have hrs : s.recreateSwapchain = false := by
      rcases Bool.or_eq_false_iff.mp hf with ⟨_, h⟩
      exact h
    exact ⟨s, [], tick_noflags inp hf, rfl, rfl, rfl, rfl, rfl, rfl, hrs,
      noSubmit_nil, fun a ha => by simp at ha, fun _ => ⟨rfl, rfl⟩⟩

/-- In a tick whose acquire succeeds on a slot whose fence-table entry
holds a token, the token is waited on (line 257) before any submission,
and it is signaled afterwards. -/
theorem tick_waited {s : SchedState} {inp : TickInput} {slot : Nat}
    {sub : Bool} {t : Nat}
    (hacq : inp.acquireRes = AcquireResult.ok slot sub)
    (hra : reachesAcquire s inp)
    (hfo : s.fences[slot]? = some (some t)) :
    ∃ pre l, (tick s inp).2 = pre ++ Action.waitFence t :: l ∧ NoSubmit pre ∧
      t ∈ (tick s inp).1.signaled := by
  obtain ⟨s', acts0, heq, hfen, hprevI, hiss, hsig, hntk, hterm, hrc, hns, hnw, hfl⟩ :=
    tick_reaches s inp hra
  rw [heq]
  have hfo' : s'.fences[slot]? = some (some t) := by rw [hfen]; exact hfo
  obtain ⟨l, hl, hmem⟩ := tickAcquirePhase_waited acts0 hacq hfo'
  exact ⟨acts0 ++ [Action.acquireOk slot sub], l, hl,
    noSubmit_append hns (noSubmit_acquireOk slot sub), hmem⟩

theorem tickWaitSubmit_flush_eq {u : SchedState} {slot : Nat} {fo po : Option Nat}
    (fr : FlushResult) (acts : List Action)
    (hfo : u.fences[slot]? = some fo)
    (hprev : u.fences[u.previousFenceI]? = some po) :
    ∃ s2 acts2, tickWaitSubmit u slot fr acts = tickFlush s2 slot po fr acts2 ∧
      s2.fences = u.fences ∧ s2.issued = u.issued ∧
      s2.nextTokenId = u.nextTokenId ∧ s2.terminated = u.terminated ∧
      s2.recreateSwapchain = u.recreateSwapchain := by
  cases fo with
  | some t =>
      rw [tickWaitSubmit_wait _ _ hfo]
      rw [tickSubmit_eq (s := { u with signaled := t :: u.signaled }) slot fr _ hprev]
      exact ⟨_, _, rfl, rfl, rfl, rfl, rfl, rfl⟩
  | none =>
      rw [tickWaitSubmit_nowait _ _ hfo]
      rw [tickSubmit_eq slot fr _ hprev]
      exact ⟨_, _, rfl, rfl, rfl, rfl, rfl, rfl⟩

/-- In a tick whose acquire succeeds and whose fence-table lookups are in
bounds, the tick ends in the flush stage (lines 280-291), applied to a
state that still agrees with the pre-tick state on the fence table and
the token bookkeeping, with the prior future taken from the previous
iteration's slot. -/
theorem tick_submit_eq {s : SchedState} {inp : TickInput} {slot : Nat}
    {sub : Bool} {fo po : Option Nat}
    (hacq : inp.acquireRes = AcquireResult.ok slot sub)
    (hra : reachesAcquire s inp)
    (hfo : s.fences[slot]? = some fo)
    (hprev : s.fences[s.previousFenceI]? = some po) :
    ∃ s2 acts2, tick s inp = tickFlush s2 slot po inp.flushRes acts2 ∧
      s2.fences = s.fences ∧ s2.issued = s.issued ∧
      s2.nextTokenId = s.nextTokenId ∧ s2.terminated = s.terminated ∧
      s2.recreateSwapchain = sub := by
  obtain ⟨s', acts0, heq, hfen, hprevI, hiss, hsig, hntk, hterm, hrc, hns, hnw, hfl⟩ :=
    tick_reaches s inp hra
  rw [heq, tickAcquirePhase_ok s' acts0 hacq]
  cases sub with
  | false =>
      rw [tickAcquired_false]
      obtain ⟨s2, acts2, h2, hf2, hi2, hn2, ht2, hr2⟩ :=
        tickWaitSubmit_flush_eq inp.flushRes (acts0 ++ [Action.acquireOk slot false])
          (show s'.fences[slot]? = some fo by rw [hfen]; exact hfo)
          (show s'.fences[s'.previousFenceI]? = some po by rw [hfen, hprevI]; exact hprev)
      rw [h2]
      exact ⟨s2, acts2, rfl, hf2.trans hfen, hi2.trans hiss, hn2.trans hntk,
        ht2.trans hterm, hr2.trans hrc⟩
  | true =>
      rw [tickAcquired_true]
      obtain ⟨s2, acts2, h2, hf2, hi2, hn2, ht2, hr2⟩ :=
        tickWaitSubmit_flush_eq (u := { s' with recreateSwapchain := true })
          inp.flushRes (acts0 ++ [Action.acquireOk slot true])
          (show s'.fences[slot]? = some fo by rw [hfen]; exact hfo)
          (show s'.fences[s'.previousFenceI]? = some po by rw [hfen, hprevI]; exact hprev)
      rw [h2]
      exact ⟨s2, acts2, rfl, hf2.trans hfen, hi2.trans hiss, hn2.trans hntk,
        ht2.trans hterm, hr2⟩

theorem tick_fences_length (s : SchedState) (inp : TickInput) :
    ((tick s inp).1).fences.length = s.fences.length := by
  unfold tick
  by_cases hflags : (s.windowResized || s.recreateSwapchain) = true
  · rw [if_pos hflags]
    cases inp.rebuildRes with
    | invalidSize => rfl
    | fatal => rfl
    | ok k =>
        dsimp only
        by_cases hwr : s.windowResized = true
        · rw [if_pos hwr]
          exact (tickAcquirePhase_render _ inp _).2.2.2.2.1
        · rw [if_neg hwr]
          exact (tickAcquirePhase_render _ inp _).2.2.2.2.1
  · rw [if_neg hflags]
    exact (tickAcquirePhase_render s inp _).2.2.2.2.1

theorem step_fences_length (s : SchedState) (e : Ev) :
    ((step s e).1).fences.length = s.fences.length := by
  unfold step
  by_cases ht : s.terminated = true
  · rw [if_pos ht]
  · rw [if_neg ht]
    cases e with
    | resized => rfl
    | closeRequested => rfl
    | gpuSignal t => rfl
    | otherEvent => rfl
    | mainCleared inp => exact tick_fences_length s inp

/-- C1: slot mutual exclusion — in every reachable state, at most one
completion token per slot is pending (unsignaled), and in any iteration
whose acquire returns a slot whose fence-table entry holds a token, that
token is waited on (line 257), before any submission of the iteration,
and is signaled from then on: a submission reusing the slot's command
buffer happens only after the slot's previous token signaled. -/
theorem slot_mutual_exclusion {n : Nat} {s : SchedState} (h : Reach n s) :
    AtMostOnePendingPerSlot s ∧
    ∀ inp slot sub t, inp.acquireRes = AcquireResult.ok slot sub →
      reachesAcquire s inp → s.fences[slot]? = some (some t) →
      ∃ pre l, (tick s inp).2 = pre ++ Action.waitFence t :: l ∧ NoSubmit pre ∧
        t ∈ (tick s inp).1.signaled := by
  have hInv := reach_inv h
  refine ⟨?_, ?_⟩
  · intro t ht u hu hts hus hslot
    have h1 := hInv.2.2 t ht hts
    have h2 := hInv.2.2 u hu hus
    rw [hslot, h2] at h1
    have hid : u.id = t.id := Option.some.inj (Option.some.inj h1)
    cases t
    cases u
    simp_all
  · intro inp slot sub t hacq hra hfo
    exact tick_waited hacq hra hfo

/-- Witness: the invariant and the wait-before-reuse property of
slot_mutual_exclusion, at the concrete reachable 3-slot state reached
after one submission to slot 0, reusing slot 0. -/
theorem slot_mutual_exclusion_witness :
    AtMostOnePendingPerSlot sAfterSubmit ∧
    (∃ pre l, (tick sAfterSubmit inpSubmit0).2 = pre ++ Action.waitFence 0 :: l ∧
      NoSubmit pre ∧ 0 ∈ (tick sAfterSubmit inpSubmit0).1.signaled) := by
  have h := slot_mutual_exclusion
    (Reach.step (Ev.mainCleared inpSubmit0) (Reach.init (n := 3)))
  exact ⟨h.1, h.2 inpSubmit0 0 false 0 rfl (Or.inl (by decide)) (by decide)⟩

/-- C2 counterexample: with 3 slots and the stop signal arriving right
after a single submission to slot 0, the close step (lines 200-202)
terminates the loop immediately: it performs no action at all, token 0
is still pending afterwards, and the fence table is untouched — the
scheduler returns without waiting on the outstanding completion token. -/
theorem termination_drain_counterexample :
    (step sAfterSubmit Ev.closeRequested).1.terminated = true ∧
    (step sAfterSubmit Ev.closeRequested).2 = [] ∧
    Pending (step sAfterSubmit Ev.closeRequested).1 ⟨0, 0⟩ ∧
    (step sAfterSubmit Ev.closeRequested).1.fences = [some 0, none, none] := by
  exact ⟨by decide, by decide, by decide, by decide⟩

/-- C2 (amended): on the stop signal the scheduler terminates immediately
without waiting on any outstanding completion token — waiting is left to
the tokens' own release outside the loop; in the 3-slot scenario stopped
right after one submission to slot 0, slot 0's token is still pending at
termination and every token ever issued is for slot 0 (slots 1 and 2
never received one). -/
theorem termination_without_drain (s : SchedState) (h : s.terminated = false) :
    step s Ev.closeRequested = ({ s with terminated := true }, []) ∧
    NoWait (step s Ev.closeRequested).2 ∧
    (Pending (step sAfterSubmit Ev.closeRequested).1 ⟨0, 0⟩ ∧
      ∀ t ∈ (step sAfterSubmit Ev.closeRequested).1.issued, t.slot = 0) := by
  refine ⟨step_closeRequested h, ?_, by decide, by decide⟩
  rw [step_closeRequested h]
  intro a ha
  simp at ha

/-- Witness for termination_without_drain at the concrete 3-slot state. -/
theorem termination_without_drain_witness :
    step sAfterSubmit Ev.closeRequested =
      ({ sAfterSubmit with terminated := true }, []) :=
  (termination_without_drain sAfterSubmit (by decide)).1

/-- C3 counterexample: a rebuild pending only because of a stale acquire
(no resize notification) is attempted and fails with an invalid size;
afterwards both flags are clear and the next tick performs no rebuild —
the scheduler does not remain in the rebuilding state for this cause. -/
theorem invalid_size_retry_counterexample :
    sStale.recreateSwapchain = true ∧ sStale.windowResized = false ∧
    (tick sStale inpInvalidSize).2 = [Action.rebuild] ∧
    sDropped.windowResized = false ∧ sDropped.recreateSwapchain = false ∧
    Action.rebuild ∉ (tick sDropped inpSubmit0).2 := by
  exact ⟨by decide, by decide, by decide, by decide, by decide, by decide⟩

/-- C3 (amended): after a rebuild attempt fails with an invalid size, the
retry on the next tick happens exactly when a resize notification was
pending (`window_resized` survives the failed attempt, so the next tick
starts with a rebuild); a rebuild pending only through the invalidation
flag is dropped, because the flag is cleared before the attempt. -/
theorem invalid_size_retry_amended (s : SchedState) (inp : TickInput)
    (hinv : inp.rebuildRes = RebuildResult.invalidSize) :
    (s.windowResized = true →
      tick s inp = ({ s with recreateSwapchain := false }, [Action.rebuild]) ∧
      (tick s inp).1.windowResized = true ∧
      ∀ j : TickInput, ((tick (tick s inp).1 j).2).head? = some Action.rebuild) ∧
    (s.windowResized = false → s.recreateSwapchain = true →
      (tick s inp).1.windowResized = false ∧
      (tick s inp).1.recreateSwapchain = false) := by
  constructor
  · intro hwr
    have hcond : (s.windowResized || s.recreateSwapchain) = true := by
      rw [hwr]; rfl
    have heq := tick_flags_invalidSize hcond hinv
    refine ⟨heq, ?_, ?_⟩
    · rw [heq]; exact hwr
    · intro j
      apply tick_head_rebuild
      rw [heq]
      show (s.windowResized || false) = true
      rw [hwr]
      rfl
  · intro hwr hrs
    have hcond : (s.windowResized || s.recreateSwapchain) = true := by
      rw [hwr, hrs]; rfl
    have heq := tick_flags_invalidSize hcond hinv
    rw [heq]
    exact ⟨hwr, rfl⟩

/-- Witness for invalid_size_retry_amended: a resize-pending rebuild that
fails with an invalid size is retried, and a stale-only one is dropped,
at concrete 3-slot states. -/
theorem invalid_size_retry_amended_witness :
    (tick sResized inpInvalidSize =
      ({ sResized with recreateSwapchain := false }, [Action.rebuild])) ∧
    ((tick sStale inpInvalidSize).1.windowResized = false ∧
      (tick sStale inpInvalidSize).1.recreateSwapchain = false) := by
  refine ⟨((invalid_size_retry_amended sResized inpInvalidSize rfl).1 (by decide)).1, ?_⟩
  exact (invalid_size_retry_amended sStale inpInvalidSize rfl).2 (by decide) (by decide)

/-- C4: an iteration in which both the resize notification and the
invalidation flag are pending performs exactly one rebuild call
(`swapchain.recreate` is reached once, line 212), and no iteration of
the loop ever performs more than one. -/
theorem idempotent_rebuild_collapse (s : SchedState) (inp : TickInput)
    (hwr : s.windowResized = true) (_hrs : s.recreateSwapchain = true) :
    ((tick s inp).2).count Action.rebuild = 1 ∧
    ∀ u j, ((tick u j).2).count Action.rebuild ≤ 1 := by
  constructor
  · rw [tick_rebuild_count, if_pos (by rw [hwr]; rfl)]
  · intro u j
    rw [tick_rebuild_count]
    split <;> omega

/-- Witness for idempotent_rebuild_collapse at a concrete 3-slot state
with both flags set. -/
theorem idempotent_rebuild_collapse_witness :
    ((tick sBothFlags inpSubmit0).2).count Action.rebuild = 1 :=
  (idempotent_rebuild_collapse sBothFlags inpSubmit0 (by decide) (by decide)).1

/-- C5: an iteration whose acquire reports out-of-date performs no wait,
no submission and no presentation, issues no token, sets the
invalidation flag while leaving the loop running, and the next iteration
begins with a rebuild before any acquire; an acquire failure other than
out-of-date terminates the loop. -/
theorem out_of_date_acquire_handling (s : SchedState) (inp : TickInput)
    (hra : reachesAcquire s inp) :
    (inp.acquireRes = AcquireResult.outOfDate →
      (tick s inp).1.recreateSwapchain = true ∧
      (tick s inp).1.terminated = s.terminated ∧
      NoSubmit (tick s inp).2 ∧ NoWait (tick s inp).2 ∧
      (tick s inp).1.issued = s.issued ∧
      ∀ j : TickInput, ((tick (tick s inp).1 j).2).head? = some Action.rebuild) ∧
    (inp.acquireRes = AcquireResult.fatal →
      (tick s inp).1.terminated = true) := by
  obtain ⟨s', acts0, heq, hfen, hprevI, hiss, hsig, hntk, hterm, hrc, hns, hnw, hfl⟩ :=
    tick_reaches s inp hra
  constructor
  · intro hacq
    rw [heq, tickAcquirePhase_outOfDate s' acts0 hacq]
    refine ⟨rfl, hterm, ?_, ?_, hiss, ?_⟩
    · refine noSubmit_append hns ?_
      intro a ha
      rw [List.mem_singleton.mp ha]
      rfl
    · intro a ha
      rcases List.mem_append.mp ha with h | h
      · exact hnw a h
      · rw [List.mem_singleton.mp h]; rfl
    · intro j
      apply tick_head_rebuild
      show (s'.windowResized || true) = true
      exact Bool.or_true _
  · intro hacq
    rw [heq, tickAcquirePhase_fatal s' acts0 hacq]

/-- Witness for out_of_date_acquire_handling at the initial 3-slot state
with an out-of-date acquire, the next iteration driven by a clean
oracle. -/
theorem out_of_date_acquire_handling_witness :
    (tick (init 3) inpStaleAcquire).1.recreateSwapchain = true ∧
    (tick (init 3) inpStaleAcquire).1.terminated = (init 3).terminated ∧
    NoSubmit (tick (init 3) inpStaleAcquire).2 ∧
    NoWait (tick (init 3) inpStaleAcquire).2 ∧
    (tick (init 3) inpStaleAcquire).1.issued = (init 3).issued ∧
    ((tick (tick (init 3) inpStaleAcquire).1 inpSubmit0).2).head? =
      some Action.rebuild := by
  have h :=
    (out_of_date_acquire_handling (init 3) inpStaleAcquire (Or.inl (by decide))).1 rfl
  exact ⟨h.1, h.2.1, h.2.2.1, h.2.2.2.1, h.2.2.2.2.1, h.2.2.2.2.2 inpSubmit0⟩

/-- C6: an iteration that reaches the flush of its submission and gets an
out-of-date result sets the invalidation flag, clears the acquired
slot's fence-table entry (no completion token is recorded: the token
ghost history is unchanged) and leaves the loop running; any other flush
failure terminates the loop. -/
theorem present_failure_handling (s : SchedState) (inp : TickInput)
    (slot : Nat) (sub : Bool) (fo po : Option Nat)
    (hacq : inp.acquireRes = AcquireResult.ok slot sub)
    (hra : reachesAcquire s inp)
    (hfo : s.fences[slot]? = some fo)
    (hprev : s.fences[s.previousFenceI]? = some po) :
    (inp.flushRes = FlushResult.outOfDate →
      (tick s inp).1.recreateSwapchain = true ∧
      (tick s inp).1.terminated = s.terminated ∧
      (tick s inp).1.fences[slot]? = some none ∧
      (tick s inp).1.issued = s.issued) ∧
    (inp.flushRes = FlushResult.fatal →
      (tick s inp).1.terminated = true) := by
  obtain ⟨s2, acts2, heq, hf2, hi2, hn2, ht2, hr2⟩ :=
    tick_submit_eq hacq hra hfo hprev
  have hslot : slot < s2.fences.length := by
    rw [hf2]
    rcases List.getElem?_eq_some.mp hfo with ⟨h, _⟩
    exact h
  constructor
  · intro hfr
    rw [heq, hfr]
    refine ⟨rfl, ht2, ?_, hi2⟩
    show (s2.fences.set slot none)[slot]? = some none
    exact List.getElem?_set_self hslot
  · intro hfr
    rw [heq, hfr]
    rfl

/-- Witness for present_failure_handling: the second iteration of the
3-slot loop reuses slot 0 and its flush reports out-of-date. -/
theorem present_failure_handling_witness :
    (tick sAfterSubmit inpFlushOOD).1.recreateSwapchain = true ∧
    (tick sAfterSubmit inpFlushOOD).1.terminated = sAfterSubmit.terminated ∧
    (tick sAfterSubmit inpFlushOOD).1.fences[0]? = some none ∧
    (tick sAfterSubmit inpFlushOOD).1.issued = sAfterSubmit.issued :=
  (present_failure_handling sAfterSubmit inpFlushOOD 0 false (some 0) (some 0)
    rfl (Or.inl (by decide)) (by decide) (by decide)).1 rfl

/-- C7: an iteration with no pending rebuild whose acquire succeeds with
suboptimal=true still completes its wait, submit and present phases
normally (no rebuild happens in the iteration, the slot's stored fence
is waited on if present, and the submission obtains a fresh token), and
the invalidation flag is set so the next iteration begins with a
rebuild before any acquire. -/
theorem suboptimal_acquire_handling (s : SchedState) (inp : TickInput)
    (slot : Nat) (po : Option Nat)
    (hwr : s.windowResized = false) (hrs : s.recreateSwapchain = false)
    (hacq : inp.acquireRes = AcquireResult.ok slot true)
    (hfr : inp.flushRes = FlushResult.ok)
    (hslot : slot < s.fences.length)
    (hprev : s.fences[s.previousFenceI]? = some po) :
    Action.rebuild ∉ (tick s inp).2 ∧
    (∃ w, (tick s inp).2 =
        Action.acquireOk slot true :: w ++
          [Action.submitPresent slot po s.resourceGen (some s.nextTokenId)] ∧
      ((s.fences[slot]? = some none → w = []) ∧
       (∀ t, s.fences[slot]? = some (some t) → w = [Action.waitFence t]))) ∧
    (tick s inp).1.recreateSwapchain = true ∧
    (∀ j : TickInput, ((tick (tick s inp).1 j).2).head? = some Action.rebuild) := by
  have hnf : (s.windowResized || s.recreateSwapchain) = false := by
    rw [hwr, hrs]; rfl
  rw [tick_noflags inp hnf, tickAcquirePhase_ok s [] hacq, tickAcquired_true, hfr]
  have hfo : s.fences[slot]? = some (s.fences[slot]) :=
    List.getElem?_eq_getElem hslot
  rcases hv : s.fences[slot] with _ | t
  · rw [hv] at hfo
    rw [tickWaitSubmit_nowait (s := { s with recreateSwapchain := true }) _ _ hfo,
      tickSubmit_eq (s := { s with recreateSwapchain := true }) slot _ _ hprev]
    refine ⟨by simp [tickFlush], ⟨[], rfl, fun _ => rfl, ?_⟩, rfl, ?_⟩
    · intro t ht
      rw [hfo] at ht
      exact absurd (Option.some.inj ht) (by simp)
    · intro j
      apply tick_head_rebuild
      show (s.windowResized || true) = true
      exact Bool.or_true _
  · rw [hv] at hfo
    rw [tickWaitSubmit_wait (s := { s with recreateSwapchain := true }) _ _ hfo,
      tickSubmit_eq
        (s := { s with recreateSwapchain := true, signaled := t :: s.signaled })
        slot _ _ hprev]
    refine ⟨by simp [tickFlush], ⟨[Action.waitFence t], rfl, ?_, ?_⟩, rfl, ?_⟩
    · intro ht
      rw [hfo] at ht
      exact absurd (Option.some.inj ht) (by simp)
    · intro u hu
      rw [hfo] at hu
      rw [Option.some.inj (Option.some.inj hu)]
    · intro j
      apply tick_head_rebuild
      show (s.windowResized || true) = true
      exact Bool.or_true _

/-- Witness for suboptimal_acquire_handling: slot 0 acquired suboptimal
at the initial 3-slot state, the next iteration driven by a clean
oracle. -/
theorem suboptimal_acquire_handling_witness :
    Action.rebuild ∉ (tick (init 3) inpSuboptimal).2 ∧
    (∃ w, (tick (init 3) inpSuboptimal).2 =
        Action.acquireOk 0 true :: w ++ [Action.submitPresent 0 none 0 (some 0)] ∧
      (((init 3).fences[0]? = some none → w = []) ∧
       (∀ t, (init 3).fences[0]? = some (some t) → w = [Action.waitFence t]))) ∧
    (tick (init 3) inpSuboptimal).1.recreateSwapchain = true ∧
    ((tick (tick (init 3) inpSuboptimal).1 inpSubmit0).2).head? =
      some Action.rebuild := by
  have h := suboptimal_acquire_handling (init 3) inpSuboptimal 0 none
    rfl rfl rfl rfl (by decide) (by decide)
  exact ⟨h.1, h.2.1, h.2.2.1, h.2.2.2 inpSubmit0⟩

/-- C8: in an iteration that reaches its submission, the prior future the
submission is joined after is the fence-table entry of
`previous_fence_i` — the slot used by the immediately preceding
iteration — not the newly acquired slot's entry (an empty entry stands
for the no-op `sync::now` future), and after the submission
`previous_fence_i` becomes the slot just submitted to. -/
theorem previous_fence_index_policy (s : SchedState) (inp : TickInput)
    (slot : Nat) (sub : Bool) (fo po : Option Nat)
    (hacq : inp.acquireRes = AcquireResult.ok slot sub)
    (hra : reachesAcquire s inp)
    (hfo : s.fences[slot]? = some fo)
    (hprev : s.fences[s.previousFenceI]? = some po)
    (hnf : inp.flushRes ≠ FlushResult.fatal) :
    (∃ g nt, Action.submitPresent slot po g nt ∈ (tick s inp).2 ∧
      (inp.flushRes = FlushResult.ok → nt = some s.nextTokenId) ∧
      (inp.flushRes = FlushResult.outOfDate → nt = none)) ∧
    (tick s inp).1.previousFenceI = slot := by
  obtain ⟨s2, acts2, heq, hf2, hi2, hn2, ht2, hr2⟩ :=
    tick_submit_eq hacq hra hfo hprev
  rw [heq]
  cases hfr : inp.flushRes with
  | ok =>
      refine ⟨⟨s2.resourceGen, some s2.nextTokenId, ?_, ?_, ?_⟩, rfl⟩
      · simp [tickFlush]
      · intro _
        rw [hn2]
      · intro h
        cases h
  | outOfDate =>
      refine ⟨⟨s2.resourceGen, none, ?_, ?_, ?_⟩, rfl⟩
      · simp [tickFlush]
      · intro h
        cases h
      · intro _
        rfl
  | fatal => exact absurd hfr hnf

/-- Witness for previous_fence_index_policy: the second iteration of the
3-slot loop, where slot 0 is reacquired and the previous slot is slot
0 with a stored token. -/
theorem previous_fence_index_policy_witness :
    (∃ g nt, Action.submitPresent 0 (some 0) g nt ∈ (tick sAfterSubmit inpSubmit0).2 ∧
      (inpSubmit0.flushRes = FlushResult.ok → nt = some sAfterSubmit.nextTokenId) ∧
      (inpSubmit0.flushRes = FlushResult.outOfDate → nt = none)) ∧
    (tick sAfterSubmit inpSubmit0).1.previousFenceI = 0 :=
  previous_fence_index_policy sAfterSubmit inpSubmit0 0 false (some 0) (some 0)
    rfl (Or.inl (by decide)) (by decide) (by decide) (by decide)

/-- C9 counterexample: in a 3-slot loop, a rebuild triggered only by a
prior out-of-date acquire (no resize notification) bumps the surface
generation to 1, yet the following submission of the same iteration
uses a command stream of generation 0, and the viewport is also left at
generation 0 — the render resources are not rebuilt against the new
surface generation before the next submission uses them. -/
theorem render_refresh_counterexample :
    sStale.recreateSwapchain = true ∧ sStale.windowResized = false ∧
    (tick sStale inpSubmit0).1.surfaceGen = 1 ∧
    (tick sStale inpSubmit0).1.resourceGen = 0 ∧
    (tick sStale inpSubmit0).1.viewportGen = 0 ∧
    Action.submitPresent 0 none 0 (some 0) ∈ (tick sStale inpSubmit0).2 := by
  exact ⟨by decide, by decide, by decide, by decide, by decide, by decide⟩

/-- C9 (amended): when a rebuild succeeds, the render resources
(viewport and per-slot command streams over the new framebuffers) are
rebuilt against the new surface generation exactly when a resize
notification was pending; a rebuild triggered only by the invalidation
flag leaves them at their previous generation. -/
theorem render_refresh_amended (s : SchedState) (inp : TickInput) (k : Nat)
    (hok : inp.rebuildRes = RebuildResult.ok k) :
    (s.windowResized = true →
      (tick s inp).1.surfaceGen = s.surfaceGen + 1 ∧
      (tick s inp).1.resourceGen = s.surfaceGen + 1 ∧
      (tick s inp).1.viewportGen = s.surfaceGen + 1) ∧
    (s.windowResized = false → s.recreateSwapchain = true →
      (tick s inp).1.surfaceGen = s.surfaceGen + 1 ∧
      (tick s inp).1.resourceGen = s.resourceGen ∧
      (tick s inp).1.viewportGen = s.viewportGen) := by
  constructor
  · intro hwr
    rw [tick_flags_ok_resized hwr hok]
    obtain ⟨h1, h2, h3, _⟩ := tickAcquirePhase_render _ inp [Action.rebuild]
    exact ⟨h1, h2, h3⟩
  · intro hwr hrs
    rw [tick_flags_ok_noresize hwr hrs hok]
    obtain ⟨h1, h2, h3, _⟩ := tickAcquirePhase_render _ inp [Action.rebuild]
    exact ⟨h1, h2, h3⟩

/-- Witness for render_refresh_amended: a resize-triggered rebuild in
the 3-slot loop rebuilds viewport and command streams at the new
generation; a stale-triggered one leaves them at generation 0. -/
theorem render_refresh_amended_witness :
    ((tick sResized inpSubmit0).1.surfaceGen = 1 ∧
      (tick sResized inpSubmit0).1.resourceGen = 1 ∧
      (tick sResized inpSubmit0).1.viewportGen = 1) ∧
    ((tick sStale inpSubmit0).1.surfaceGen = 1 ∧
      (tick sStale inpSubmit0).1.resourceGen = 0 ∧
      (tick sStale inpSubmit0).1.viewportGen = 0) :=
  ⟨(render_refresh_amended sResized inpSubmit0 3 rfl).1 (by decide),
    (render_refresh_amended sStale inpSubmit0 3 rfl).2 (by decide) (by decide)⟩

/-- C10 counterexample: in the 3-slot loop, reusing slot 0 with a flush
that fails out-of-date resets slot 0's table entry to `None`, but the
discarded previous token (token 0) had been waited on earlier in the
same iteration (line 257) and is signaled — it is not discarded without
being waited on. -/
theorem fence_table_discard_counterexample :
    sAfterSubmit.fences[0]? = some (some 0) ∧
    (tick sAfterSubmit inpFlushOOD).1.fences[0]? = some none ∧
    Action.waitFence 0 ∈ (tick sAfterSubmit inpFlushOOD).2 ∧
    0 ∈ (tick sAfterSubmit inpFlushOOD).1.signaled := by
  exact ⟨by decide, by decide, by decide, by decide⟩

/-- C10 (amended): the fence table is created at startup with one `None`
entry per initial swapchain image and no event-loop step ever changes
its length (swapchain rebuilds included); acquired slot indices index
this original table; on a flush that fails out-of-date the acquired
slot's entry is reset to `None`, the token previously stored there
having already been waited on (and signaled) earlier in the same
iteration. -/
theorem fixed_fence_table_amended (n : Nat) (s : SchedState) (inp : TickInput)
    (slot : Nat) (sub : Bool) (t : Nat) (po : Option Nat)
    (hacq : inp.acquireRes = AcquireResult.ok slot sub)
    (hra : reachesAcquire s inp)
    (hfl : inp.flushRes = FlushResult.outOfDate)
    (hfo : s.fences[slot]? = some (some t))
    (hprev : s.fences[s.previousFenceI]? = some po) :
    (init n).fences = List.replicate n none ∧
    (∀ u : SchedState, ∀ e : Ev, ((step u e).1).fences.length = u.fences.length) ∧
    (tick s inp).1.fences[slot]? = some none ∧
    (∃ pre l, (tick s inp).2 = pre ++ Action.waitFence t :: l ∧
      t ∈ (tick s inp).1.signaled) := by
  refine ⟨rfl, step_fences_length, ?_, ?_⟩
  · obtain ⟨s2, acts2, heq, hf2, hi2, hn2, ht2, hr2⟩ :=
      tick_submit_eq hacq hra hfo hprev
    have hslot : slot < s2.fences.length := by
      rw [hf2]
      rcases List.getElem?_eq_some.mp hfo with ⟨h, _⟩
      exact h
    rw [heq, hfl]
    show (s2.fences.set slot none)[slot]? = some none
    exact List.getElem?_set_self hslot
  · obtain ⟨pre, l, hl, _, hsig⟩ := tick_waited hacq hra hfo
    exact ⟨pre, l, hl, hsig⟩

/-- Witness for fixed_fence_table_amended at the concrete 3-slot run
whose second iteration's flush fails out-of-date on slot 0. -/
theorem fixed_fence_table_amended_witness :
    (init 3).fences = List.replicate 3 none ∧
    (tick sAfterSubmit inpFlushOOD).1.fences[0]? = some none := by
  have h := fixed_fence_table_amended 3 sAfterSubmit inpFlushOOD 0 false 0 (some 0)
    rfl (Or.inl (by decide)) rfl (by decide) (by decide)
  exact ⟨h.1, h.2.2.1⟩

end Sel
